import Mathlib

/-!
Shallow embedding of the retrieval-augmented answer pipeline of
`src/faculty_advisor.py` (functions `find_similars`, `make_context`,
`messages_for`, `gpt_4o_mini_rag`), together with theorems settling the
specification claims about it.

Python exceptions are modelled with `Except`: a Python expression that can
raise is a Lean value of type `Except PipelineError _`, and a raised
exception aborts the enclosing computation exactly as the exception unwinds
the Python call.  External collaborators (the embedding provider, the Chroma
collection, the OpenAI streaming client) are parameters: each is a function
returning `Except`, so that any behaviour the collaborator can exhibit is a
possible instantiation.
-/

/-- The failure kinds that can flow through the pipeline.  `keyError f`
models a Python `KeyError` for a dict subscript on field `f`; `indexError`
a Python `IndexError` for list subscripting. -/
inductive PipelineError where
  | embeddingError
  | indexQueryError
  | completionError
  | keyError (field : String)
  | indexError
deriving DecidableEq, Repr

/-- A metadata record returned by the vector index.  The source only reads
the fields `name` and `url`; either may be absent from the underlying dict,
hence `Option`. -/
structure Metadata where
  name : Option String
  url : Option String
deriving DecidableEq, Repr

/-- The result shape of `collection.query(...)` that the source reads:
`results["documents"]` and `results["metadatas"]` are lists with one inner
list per query embedding. -/
structure QueryResults where
  documents : List (List String)
  metadatas : List (List Metadata)

/-- The ChromaDB collection collaborator, reduced to the one capability the
source uses: `query(query_embeddings, n_results)`. -/
structure Collection where
  query : List Float → Nat → Except PipelineError QueryResults

/-- Python dict subscript `m[k]`: raises `KeyError k` when the field is
absent. -/
def pyGet (v : Option α) (k : String) : Except PipelineError α :=
  match v with
  | some x => Except.ok x
  | none => Except.error (PipelineError.keyError k)

/-- Python list subscript `xs[i]`: raises `IndexError` when out of range. -/
def pyIndex (xs : List α) (i : Nat) : Except PipelineError α :=
  match xs.get? i with
  | some x => Except.ok x
  | none => Except.error PipelineError.indexError

/-- A Python list comprehension `[f x for x in xs]` over a body that can
raise: elements are produced left to right and the first exception aborts
the whole comprehension. -/
def exceptMap (f : α → Except PipelineError β) : List α → Except PipelineError (List β)
  | [] => Except.ok []
  | x :: xs =>
    match f x with
    | Except.error e => Except.error e
    | Except.ok y =>
      match exceptMap f xs with
      | Except.error e => Except.error e
      | Except.ok ys => Except.ok (y :: ys)

/-- `find_similars(collection, description)` from `faculty_advisor.py`:
embed the description, query the collection with `n_results=10`, take the
first documents list (the trailing `[:]` slice is an identity copy), and
read `m["name"]` and `m["url"]` of each metadata record of the first
metadatas list. -/
def find_similars (embed : String → Except PipelineError (List Float))
    (collection : Collection) (description : String) :
    Except PipelineError (List String × List String × List String) :=
  match embed description with
  | Except.error e => Except.error e
  | Except.ok emb =>
    match collection.query emb 10 with
    | Except.error e => Except.error e
    | Except.ok results =>
      match pyIndex results.documents 0 with
      | Except.error e => Except.error e
      | Except.ok documents =>
        match pyIndex results.metadatas 0 with
        | Except.error e => Except.error e
        | Except.ok metas =>
          match exceptMap (fun m => pyGet m.name "name") metas with
          | Except.error e => Except.error e
          | Except.ok name =>
            match exceptMap (fun m => pyGet m.url "url") metas with
            | Except.error e => Except.error e
            | Except.ok link => Except.ok (documents, name, link)

/-- The fixed introductory sentence of `make_context`. -/
def contextIntro : String :=
  "To provide some context, here are some faculty members that might be relevant to your description.\n\n"

/-- The f-string block appended per zipped `(similar, name, link)` triple in
the loop of `make_context`, with the newlines and indentation of the
triple-quoted literal spelled out. -/
def contextBlock (similar name link : String) : String :=
  "Potentially related faculty:\n" ++ name ++ "\n\n        website: " ++ link ++
    "\n\n        " ++ similar ++ "\n\n"

/-- The `for similar, name, link in zip(documents, names, links):` loop of
`make_context`, accumulating onto `message`.  Python `zip` stops at the
shortest of the three lists. -/
def contextLoop (message : String) :
    List String → List String → List String → String
  | similar :: ds, name :: ns, link :: ls =>
    contextLoop (message ++ contextBlock similar name link) ds ns ls
  | _, _, _ => message

/-- `make_context(similars)` from `faculty_advisor.py`. -/
def make_context (similars : List String × List String × List String) : String :=
  contextLoop contextIntro similars.1 similars.2.1 similars.2.2

/-- A chat message `{"role": ..., "content": ...}`. -/
structure Message where
  role : String
  content : String
deriving DecidableEq, Repr

/-- `messages_for(description, similars)` from `faculty_advisor.py`. -/
def messages_for (description : String)
    (similars : List String × List String × List String) : Message :=
  { role := "user",
    content := ("Here is my description: " ++ description ++ "\n\n") ++ make_context similars }

/-- The fixed system message of `gpt_4o_mini_rag`. -/
def system_message : Message :=
  { role := "system",
    content := "You are a academic advisor. You estimate the relevance of faculty members to a given description. Suggest relevant faculty members. Don\x27t forget to include a link to the faculty member\x27s profile. You should give explanation for your choice in markdown format." }

/-- The history-flattening loop of `gpt_4o_mini_rag`: each `(user_msg,
assistant_msg)` tuple contributes a user message then an assistant message,
in order. -/
def formatted_history : List (String × String) → List Message
  | [] => []
  | (user_msg, assistant_msg) :: rest =>
    { role := "user", content := user_msg } ::
      { role := "assistant", content := assistant_msg } :: formatted_history rest

/-- The assembled message list of `gpt_4o_mini_rag`:
`[system_message] + formatted_history + [current_message]`. -/
def rag_messages (description : String)
    (similars : List String × List String × List String)
    (history : List (String × String)) : List Message :=
  system_message :: (formatted_history history ++ [messages_for description similars])

/-- One event observed while iterating the OpenAI stream: either the next
chunk arrives (`chunk c`, with `c` modelling `chunk.choices[0].delta.content`,
which may be `None`), or the iteration raises (`fail e`). -/
inductive StreamEvent where
  | chunk (content : Option String)
  | fail (e : PipelineError)
deriving DecidableEq, Repr

/-- The generator loop of `gpt_4o_mini_rag`:
`for chunk in stream:` then `response += chunk.choices[0].delta.content or`
the empty string literal, then `yield response` per iteration.
Returns the list of yielded snapshots and, when the stream raised
mid-iteration, the raised error (a raise stops the loop: nothing after it is
yielded). -/
def consumeLoop (response : String) :
    List StreamEvent → List String × Option PipelineError
  | [] => ([], none)
  | StreamEvent.chunk c :: rest =>
    let response2 := response ++ c.getD ""
    ((response2 :: (consumeLoop response2 rest).1), (consumeLoop response2 rest).2)
  | StreamEvent.fail e :: _ => ([], some e)

/-- Right-fold concatenation of a list of strings, used to state what the
accumulating loops compute. -/
def strJoin : List String → String
  | [] => ""
  | s :: ss => s ++ strJoin ss

/-- Truncating three-way zip, the semantics of Python
`zip(documents, names, links)`. -/
def zip3 : List α → List β → List γ → List (α × β × γ)
  | a :: as, b :: bs, c :: cs => (a, b, c) :: zip3 as bs cs
  | _, _, _ => []

/-- The block `make_context` emits for one zipped triple. -/
def blockOf (t : String × String × String) : String :=
  contextBlock t.1 t.2.1 t.2.2

/-- A retrieved record in the shape the spec names: document text, faculty
name, profile URL, positionally aligned. -/
structure RetrievedItem where
  document_text : String
  faculty_name : String
  profile_url : String
deriving DecidableEq, Repr

/-- A list of RetrievedItems presented as the parallel triple of lists that
`find_similars` returns and `make_context` consumes. -/
def similarsOf (items : List RetrievedItem) :
    List String × List String × List String :=
  (items.map RetrievedItem.document_text,
   items.map RetrievedItem.faculty_name,
   items.map RetrievedItem.profile_url)

/-- The context block of one RetrievedItem. -/
def itemBlock (it : RetrievedItem) : String :=
  contextBlock it.document_text it.faculty_name it.profile_url

/-- The role sequence `user, assistant, …, user` contributed by `n` history
turns followed by the final user message. -/
def roleSeq : Nat → List String
  | 0 => ["user"]
  | n + 1 => "user" :: "assistant" :: roleSeq n

/-- A trivial embedding collaborator that always succeeds. -/
def embedW : String → Except PipelineError (List Float) :=
  fun _ => Except.ok []

/-- An embedding collaborator that always fails. -/
def embedFailW : String → Except PipelineError (List Float) :=
  fun _ => Except.error PipelineError.embeddingError

/-- A fully populated metadata record. -/
def metaW : Metadata := { name := some "Alice", url := some "http://a" }

/-- A one-record query result with complete metadata. -/
def resultsW : QueryResults := { documents := [["docA"]], metadatas := [[metaW]] }

/-- A collection that always returns `resultsW`. -/
def collW : Collection := { query := fun _ _ => Except.ok resultsW }

/-- A second collection with the same query behaviour as `collW`. -/
def collW2 : Collection := { query := fun _ _ => Except.ok resultsW }

/-- A collection whose lookup always fails. -/
def collFailW : Collection := { query := fun _ _ => Except.error PipelineError.indexQueryError }

/-- A metadata record lacking the `name` field. -/
def metaC1 : Metadata := { name := none, url := some "http://u1" }

/-- A collection returning one record whose metadata lacks `name`. -/
def collC1 : Collection :=
  { query := fun _ _ => Except.ok { documents := [["doc1"]], metadatas := [[metaC1]] } }

/-- `gpt_4o_mini_rag(description, history, collection)` as a whole: retrieval,
message assembly, stream creation, then the yield loop.  An error before the
first yield surfaces as `Except.error`; a successful start returns the
yielded snapshots paired with an optional mid-stream error. -/
def gpt_4o_mini_rag (embed : String → Except PipelineError (List Float))
    (create : List Message → Except PipelineError (List StreamEvent))
    (collection : Collection) (description : String)
    (history : List (String × String)) :
    Except PipelineError (List String × Option PipelineError) :=
  match find_similars embed collection description with
  | Except.error e => Except.error e
  | Except.ok similars =>
    match create (rag_messages description similars history) with
    | Except.error e => Except.error e
    | Except.ok events => Except.ok (consumeLoop "" events)

/-! ## Helper lemmas: context builder -/

theorem contextLoop_join :
    ∀ (d n l : List String) (msg : String),
      contextLoop msg d n l = msg ++ strJoin ((zip3 d n l).map blockOf) := by
  intro d
  induction d with
  | nil => intro n l msg; cases n <;> cases l <;> simp [contextLoop, zip3, strJoin]
  | cons x ds ih =>
    intro n l msg
    cases n with
    | nil => simp [contextLoop, zip3, strJoin]
    | cons y ns =>
      cases l with
      | nil => simp [contextLoop, zip3, strJoin]
      | cons z ls =>
        simp [contextLoop, zip3, strJoin, blockOf, ih, String.append_assoc]

theorem zip3_length :
    ∀ (d : List α) (n : List β) (l : List γ),
      (zip3 d n l).length = min d.length (min n.length l.length) := by
  intro d
  induction d with
  | nil => intro n l; cases n <;> cases l <;> simp [zip3]
  | cons x ds ih =>
    intro n l
    cases n with
    | nil => simp [zip3]
    | cons y ns =>
      cases l with
      | nil => simp [zip3]
      | cons z ls => simp [zip3, ih, Nat.succ_min_succ]

theorem zip3_map_self (f g h : α → β) :
    ∀ items : List α,
      zip3 (items.map f) (items.map g) (items.map h) =
        items.map (fun it => (f it, g it, h it)) := by
  intro items
  induction items with
  | nil => simp [zip3]
  | cons it rest ih => simp [zip3, ih]

/-! ## Helper lemmas: streaming loop -/

theorem consumeLoop_get :
    ∀ (cs : List (Option String)) (acc : String) (i : Nat) (s : String),
      ((consumeLoop acc (cs.map StreamEvent.chunk)).1)[i]? = some s →
      s = acc ++ strJoin ((cs.take (i + 1)).map (fun c => c.getD "")) := by
  intro cs
  induction cs with
  | nil => intro acc i s h; simp [consumeLoop] at h
  | cons c rest ih =>
    intro acc i s h
    cases i with
    | zero =>
      simp [consumeLoop] at h
      simp [strJoin, ← h]
    | succ j =>
      simp [consumeLoop] at h
      have := ih (acc ++ c.getD "") j s h
      simp [strJoin, this, String.append_assoc]

theorem consumeLoop_step :
    ∀ (cs : List (Option String)) (acc : String) (i : Nat) (s t : String),
      ((consumeLoop acc (cs.map StreamEvent.chunk)).1)[i]? = some s →
      ((consumeLoop acc (cs.map StreamEvent.chunk)).1)[i + 1]? = some t →
      ∃ u, t = s ++ u := by
  intro cs
  induction cs with
  | nil => intro acc i s t hs ht; simp [consumeLoop] at hs
  | cons c rest ih =>
    intro acc i s t hs ht
    cases i with
    | zero =>
      simp [consumeLoop] at hs ht
      cases rest with
      | nil => simp [consumeLoop] at ht
      | cons c2 rest2 =>
        simp [consumeLoop] at ht
        exact ⟨c2.getD "", by rw [← hs, ← ht, String.append_assoc]⟩
    | succ j =>
      simp [consumeLoop] at hs ht
      exact ih (acc ++ c.getD "") j s t hs ht

theorem consumeLoop_last :
    ∀ (cs : List (Option String)) (acc : String), cs ≠ [] →
      ((consumeLoop acc (cs.map StreamEvent.chunk)).1).getLast? =
        some (acc ++ strJoin (cs.map (fun c => c.getD ""))) := by
  intro cs
  induction cs with
  | nil => intro acc h; exact absurd rfl h
  | cons c rest ih =>
    intro acc _
    cases rest with
    | nil => simp [consumeLoop, strJoin]
    | cons c2 rest2 =>
      have hrec := ih (acc ++ c.getD "") (by simp)
      simp [consumeLoop, strJoin, String.append_assoc] at hrec ⊢
      exact hrec

theorem consumeLoop_fail_append :
    ∀ (cs : List (Option String)) (acc : String) (e : PipelineError),
      (consumeLoop acc (cs.map StreamEvent.chunk ++ [StreamEvent.fail e])).1 =
        (consumeLoop acc (cs.map StreamEvent.chunk)).1 ∧
      (consumeLoop acc (cs.map StreamEvent.chunk ++ [StreamEvent.fail e])).2 = some e := by
  intro cs
  induction cs with
  | nil => intro acc e; simp [consumeLoop]
  | cons c rest ih =>
    intro acc e
    have := ih (acc ++ c.getD "") e
    simp [consumeLoop, this.1, this.2]

/-! ## Helper lemmas: exception-raising list comprehension and dict access -/

theorem pyGet_ok {v : Option α} {k : String} {y : α} :
    pyGet v k = Except.ok y ↔ v = some y := by
  cases v <;> simp [pyGet]

theorem pyGet_error {v : Option α} {k : String} {e : PipelineError} :
    pyGet v k = Except.error e ↔ v = none ∧ e = PipelineError.keyError k := by
  cases v <;> simp [pyGet, eq_comm]

theorem exceptMap_ok_length {f : α → Except PipelineError β} :
    ∀ {xs : List α} {ys : List β}, exceptMap f xs = Except.ok ys →
      ys.length = xs.length := by
  intro xs
  induction xs with
  | nil => intro ys h; simp [exceptMap] at h; simp [← h]
  | cons x rest ih =>
    intro ys h
    simp only [exceptMap] at h
    cases hx : f x with
    | error e => rw [hx] at h; exact absurd h (by simp)
    | ok y =>
      rw [hx] at h
      cases hr : exceptMap f rest with
      | error e => rw [hr] at h; exact absurd h (by simp)
      | ok ys2 =>
        rw [hr] at h
        have hy : y :: ys2 = ys := by simpa using h
        simp [← hy, ih hr]

theorem exceptMap_ok_get {f : α → Except PipelineError β} :
    ∀ {xs : List α} {ys : List β}, exceptMap f xs = Except.ok ys →
      ∀ (i : Nat) (x : α), xs[i]? = some x →
        ∃ y, ys[i]? = some y ∧ f x = Except.ok y := by
  intro xs
  induction xs with
  | nil => intro ys _ i x hx; simp at hx
  | cons a rest ih =>
    intro ys h i x hx
    simp only [exceptMap] at h
    cases ha : f a with
    | error e => rw [ha] at h; exact absurd h (by simp)
    | ok y =>
      rw [ha] at h
      cases hr : exceptMap f rest with
      | error e => rw [hr] at h; exact absurd h (by simp)
      | ok ys2 =>
        rw [hr] at h
        have hy : y :: ys2 = ys := by simpa using h
        cases i with
        | zero =>
          simp at hx
          exact ⟨y, by simp [← hy], by rw [← hx]; exact ha⟩
        | succ j =>
          simp at hx
          obtain ⟨y2, hy2, hfy2⟩ := ih hr j x hx
          exact ⟨y2, by simp [← hy, hy2], hfy2⟩

theorem exceptMap_ok_mem {f : α → Except PipelineError β} :
    ∀ {xs : List α} {ys : List β}, exceptMap f xs = Except.ok ys →
      ∀ x ∈ xs, ∃ y, f x = Except.ok y := by
  intro xs
  induction xs with
  | nil => intro ys _ x hx; simp at hx
  | cons a rest ih =>
    intro ys h x hx
    simp only [exceptMap] at h
    cases ha : f a with
    | error e => rw [ha] at h; exact absurd h (by simp)
    | ok y =>
      rw [ha] at h
      cases hr : exceptMap f rest with
      | error e => rw [hr] at h; exact absurd h (by simp)
      | ok ys2 =>
        rcases List.mem_cons.mp hx with hxa | hxr
        · exact ⟨y, by rw [hxa]; exact ha⟩
        · exact ih hr x hxr

theorem exceptMap_error_mem {f : α → Except PipelineError β} :
    ∀ {xs : List α} {e : PipelineError}, exceptMap f xs = Except.error e →
      ∃ x ∈ xs, f x = Except.error e := by
  intro xs
  induction xs with
  | nil => intro e h; simp [exceptMap] at h
  | cons a rest ih =>
    intro e h
    simp only [exceptMap] at h
    cases ha : f a with
    | error e2 =>
      rw [ha] at h
      have he : e2 = e := by simpa using h
      exact ⟨a, by simp, by rw [← he]; exact ha⟩
    | ok y =>
      rw [ha] at h
      cases hr : exceptMap f rest with
      | error e2 =>
        rw [hr] at h
        have he : e2 = e := by simpa using h
        obtain ⟨x, hx, hfx⟩ := ih (he ▸ hr)
        exact ⟨x, by simp [hx], hfx⟩
      | ok ys2 => rw [hr] at h; exact absurd h (by simp)

/-! ## Helper lemma: the success path of `find_similars` up to metadata reads -/

theorem find_similars_eq
    {embed : String → Except PipelineError (List Float)} {coll : Collection}
    {description : String} {emb : List Float} {results : QueryResults}
    {docs0 : List String} {metas0 : List Metadata}
    (hemb : embed description = Except.ok emb)
    (hq : coll.query emb 10 = Except.ok results)
    (hd : results.documents[0]? = some docs0)
    (hm : results.metadatas[0]? = some metas0) :
    find_similars embed coll description =
      match exceptMap (fun m => pyGet m.name "name") metas0 with
      | Except.error e => Except.error e
      | Except.ok name =>
        match exceptMap (fun m => pyGet m.url "url") metas0 with
        | Except.error e => Except.error e
        | Except.ok link => Except.ok (docs0, name, link) := by
  simp [find_similars, hemb, hq, pyIndex, hd, hm]

/-! ## Claim theorems -/

/-- C3: `make_context` returns the fixed introductory sentence followed by one
labeled block per RetrievedItem, in input order, each block containing the
faculty name, profile URL and document text of that item; on the empty input it is
exactly the introductory sentence. -/
theorem make_context_renders_items (items : List RetrievedItem) :
    make_context (similarsOf items) = contextIntro ++ strJoin (items.map itemBlock) ∧
    make_context (similarsOf []) = contextIntro := by
  constructor
  · have hfun :
        (blockOf ∘ fun it : RetrievedItem =>
          (it.document_text, it.faculty_name, it.profile_url)) = itemBlock := rfl
    simp [make_context, similarsOf, contextLoop_join, zip3_map_self, hfun]
  · simp [make_context, similarsOf, contextLoop]

/-- C9: on an input triple whose three lists have unequal lengths,
`make_context` renders exactly `min(|documents|, |names|, |links|)` item
blocks — the zipped excess is dropped and no error is produced. -/
theorem make_context_truncation (documents names links : List String) :
    make_context (documents, names, links) =
      contextIntro ++ strJoin ((zip3 documents names links).map blockOf) ∧
    (zip3 documents names links).length =
      min documents.length (min names.length links.length) := by
  constructor
  · simp [make_context, contextLoop_join]
  · exact zip3_length documents names links

theorem formatted_history_length :
    ∀ history : List (String × String),
      (formatted_history history).length = 2 * history.length := by
  intro history
  induction history with
  | nil => simp [formatted_history]
  | cons p rest ih =>
    obtain ⟨u, a⟩ := p
    simp [formatted_history, ih]
    omega

theorem roles_concat :
    ∀ (history : List (String × String)) (m : Message), m.role = "user" →
      (formatted_history history ++ [m]).map Message.role = roleSeq history.length := by
  intro history
  induction history with
  | nil => intro m hm; simp [formatted_history, roleSeq, hm]
  | cons p rest ih =>
    intro m hm
    obtain ⟨u, a⟩ := p
    simp only [formatted_history, List.cons_append, List.map_cons, List.length_cons, roleSeq]
    simp [ih m hm]

theorem formatted_history_get :
    ∀ (history : List (String × String)) (i : Nat) (t : String × String),
      history[i]? = some t →
      (formatted_history history)[2 * i]? = some { role := "user", content := t.1 } ∧
      (formatted_history history)[2 * i + 1]? = some { role := "assistant", content := t.2 } := by
  intro history
  induction history with
  | nil => intro i t ht; simp at ht
  | cons p rest ih =>
    intro i t ht
    obtain ⟨u, a⟩ := p
    cases i with
    | zero =>
      simp at ht
      simp [formatted_history, ← ht]
    | succ j =>
      simp only [List.getElem?_cons_succ] at ht
      have hrec := ih j t ht
      have h2 : 2 * (j + 1) = 2 * j + 1 + 1 := by omega
      constructor
      · rw [h2]
        simp [formatted_history, hrec.1]
      · rw [h2]
        simp [formatted_history, hrec.2]

/-- C2: for every query and history, the assembled message list of
`gpt_4o_mini_rag` has exactly `2*|history| + 2` entries, the role sequence is
`system` then `user`/`assistant` once per turn in chronological order then a
final `user`, and the final message content starts with the literal prefix
`Here is my description: ` followed by the query. -/
theorem rag_messages_shape (description : String)
    (similars : List String × List String × List String)
    (history : List (String × String)) :
    (rag_messages description similars history).length = 2 * history.length + 2 ∧
    (rag_messages description similars history).map Message.role =
      "system" :: roleSeq history.length ∧
    (∀ (i : Nat) (t : String × String), history[i]? = some t →
      (rag_messages description similars history)[2 * i + 1]? =
        some { role := "user", content := t.1 } ∧
      (rag_messages description similars history)[2 * i + 2]? =
        some { role := "assistant", content := t.2 }) ∧
    (∃ rest, (rag_messages description similars history).getLast? =
      some { role := "user",
             content := ("Here is my description: " ++ description) ++ rest }) := by
  refine ⟨?_, ?_, ?_, ?_⟩
  · simp [rag_messages, formatted_history_length history]
  · simp only [rag_messages, List.map_cons]
    rw [roles_concat history (messages_for description similars) rfl]
    rfl
  · intro i t ht
    have hi : i < history.length := by
      by_contra hno
      push_neg at hno
      rw [List.getElem?_eq_none hno] at ht
      exact absurd ht (by simp)
    have hfh := formatted_history_get history i t ht
    have hbound1 : 2 * i < (formatted_history history).length := by
      rw [formatted_history_length history]; omega
    have hbound2 : 2 * i + 1 < (formatted_history history).length := by
      rw [formatted_history_length history]; omega
    constructor
    · show (rag_messages description similars history)[(2 * i) + 1]? = _
      simp only [rag_messages, List.getElem?_cons_succ]
      rw [List.getElem?_append_left hbound1]
      exact hfh.1
    · show (rag_messages description similars history)[(2 * i + 1) + 1]? = _
      simp only [rag_messages, List.getElem?_cons_succ]
      rw [List.getElem?_append_left hbound2]
      exact hfh.2
  · refine ⟨"\n\n" ++ make_context similars, ?_⟩
    have hsplit : rag_messages description similars history =
        (system_message :: formatted_history history) ++
          [messages_for description similars] := by
      simp [rag_messages]
    have hlast : (rag_messages description similars history).getLast? =
        some (messages_for description similars) := by
      rw [hsplit, List.getLast?_concat]
    rw [hlast]
    simp [messages_for, String.append_assoc]

/-- Witness for `rag_messages_shape` at a concrete query, empty retrieval
triple and a one-turn history. -/
theorem rag_messages_shape_witness :
    (rag_messages "q" ([], [], []) [("Hi", "Hello!")]).length = 2 * 1 + 2 ∧
    (rag_messages "q" ([], [], []) [("Hi", "Hello!")])[1]? =
      some { role := "user", content := "Hi" } ∧
    (rag_messages "q" ([], [], []) [("Hi", "Hello!")])[2]? =
      some { role := "assistant", content := "Hello!" } := by
  have h := rag_messages_shape "q" ([], [], []) [("Hi", "Hello!")]
  have h2 := h.2.2.1 0 ("Hi", "Hello!") (by decide)
  exact ⟨h.1, h2.1, h2.2⟩

/-- C4: over any finite chunk sequence, every snapshot yielded by the
generator loop is the concatenation of all chunk contents received so far,
each snapshot is a prefix of the next, and the final snapshot equals the
complete answer. -/
theorem stream_cumulative (cs : List (Option String)) :
    (∀ (i : Nat) (s : String),
      ((consumeLoop "" (cs.map StreamEvent.chunk)).1)[i]? = some s →
      s = strJoin ((cs.take (i + 1)).map (fun c => c.getD ""))) ∧
    (∀ (i : Nat) (s t : String),
      ((consumeLoop "" (cs.map StreamEvent.chunk)).1)[i]? = some s →
      ((consumeLoop "" (cs.map StreamEvent.chunk)).1)[i + 1]? = some t →
      ∃ u, t = s ++ u) ∧
    (cs ≠ [] → ((consumeLoop "" (cs.map StreamEvent.chunk)).1).getLast? =
      some (strJoin (cs.map (fun c => c.getD "")))) := by
  refine ⟨?_, ?_, ?_⟩
  · intro i s h
    have := consumeLoop_get cs "" i s h
    simpa using this
  · exact consumeLoop_step cs ""
  · intro hne
    have := consumeLoop_last cs "" hne
    simpa using this

/-- Witness for `stream_cumulative` on a concrete three-chunk stream. -/
theorem stream_cumulative_witness :
    ((consumeLoop "" ([some "ab", none, some "c"].map StreamEvent.chunk)).1).getLast? =
      some "abc" := by
  have h := (stream_cumulative [some "ab", none, some "c"]).2.2 (by decide)
  exact h.trans (by decide)

/-- C7: a stream failure before any chunk makes the generator loop yield
nothing and raise the terminal error, and a failure after a run of chunks
leaves all snapshots already yielded intact while the terminal error is
still raised. -/
theorem stream_failure_semantics (rest : List StreamEvent)
    (cs : List (Option String)) :
    consumeLoop "" (StreamEvent.fail PipelineError.completionError :: rest) =
      ([], some PipelineError.completionError) ∧
    (consumeLoop ""
        (cs.map StreamEvent.chunk ++ [StreamEvent.fail PipelineError.completionError])).1 =
      (consumeLoop "" (cs.map StreamEvent.chunk)).1 ∧
    (consumeLoop ""
        (cs.map StreamEvent.chunk ++ [StreamEvent.fail PipelineError.completionError])).2 =
      some PipelineError.completionError := by
  refine ⟨by simp [consumeLoop], ?_, ?_⟩
  · exact (consumeLoop_fail_append cs "" PipelineError.completionError).1
  · exact (consumeLoop_fail_append cs "" PipelineError.completionError).2

/-- Witness for `stream_failure_semantics`: the provider fails after emitting
`Dr. Smith is an expert`, and the caller keeps exactly that snapshot followed
by the terminal error. -/
theorem stream_failure_semantics_witness :
    (consumeLoop "" ([some "Dr. Smith is an expert"].map StreamEvent.chunk ++
        [StreamEvent.fail PipelineError.completionError])).1 =
      ["Dr. Smith is an expert"] ∧
    (consumeLoop "" ([some "Dr. Smith is an expert"].map StreamEvent.chunk ++
        [StreamEvent.fail PipelineError.completionError])).2 =
      some PipelineError.completionError := by
  have h := stream_failure_semantics [] [some "Dr. Smith is an expert"]
  exact ⟨h.2.1.trans (by decide), h.2.2⟩

/-- C10: a chunk whose delta content is absent is treated as the empty
string: the loop still yields a snapshot, that snapshot equals the previous
accumulated text, the rest of the run is unchanged, and an initial
contentless chunk makes the first snapshot the empty string. -/
theorem stream_none_chunk (acc : String) (events : List StreamEvent) :
    (consumeLoop acc (StreamEvent.chunk none :: events)).1.head? = some acc ∧
    (consumeLoop acc (StreamEvent.chunk none :: events)).1.tail =
      (consumeLoop acc events).1 ∧
    (consumeLoop acc (StreamEvent.chunk none :: events)).2 =
      (consumeLoop acc events).2 ∧
    (consumeLoop "" (StreamEvent.chunk none :: events)).1.head? = some "" := by
  simp [consumeLoop]

/-- C5: `find_similars` depends on the collection only through a lookup with
`n_results = 10` (so exactly 10 neighbours are requested), and on the success
path it returns the first documents list exactly as the index returned it —
same order, no re-ranking — hence at most 10 items whenever the index honours
`n_results`. -/
theorem find_similars_fixed_k
    (embed : String → Except PipelineError (List Float))
    (coll coll2 : Collection) (description : String)
    (emb : List Float) (results : QueryResults) (docs0 : List String)
    (hagree : ∀ e, coll.query e 10 = coll2.query e 10)
    (hemb : embed description = Except.ok emb)
    (hq : coll.query emb 10 = Except.ok results)
    (hd : results.documents[0]? = some docs0)
    (hk : docs0.length ≤ 10) :
    find_similars embed coll description = find_similars embed coll2 description ∧
    ∀ docs names links,
      find_similars embed coll description = Except.ok (docs, names, links) →
      docs = docs0 ∧ docs.length ≤ 10 := by
  constructor
  · simp [find_similars, hagree]
  · intro docs names links hok
    cases hm : results.metadatas[0]? with
    | none =>
      rw [find_similars] at hok
      simp [hemb, hq, pyIndex, hd, hm] at hok
    | some metas0 =>
      rw [find_similars_eq hemb hq hd hm] at hok
      cases hn : exceptMap (fun m => pyGet m.name "name") metas0 with
      | error e => rw [hn] at hok; exact absurd hok (by simp)
      | ok nm =>
        rw [hn] at hok
        cases hu : exceptMap (fun m => pyGet m.url "url") metas0 with
        | error e => rw [hu] at hok; exact absurd hok (by simp)
        | ok lk =>
          rw [hu] at hok
          have : docs0 = docs ∧ nm = names ∧ lk = links := by
            simpa [Prod.ext_iff] using hok
          exact ⟨this.1.symm, this.1 ▸ hk⟩

/-- Witness for `find_similars_fixed_k` on a concrete one-record index. -/
theorem find_similars_fixed_k_witness :
    find_similars embedW collW "q" = find_similars embedW collW2 "q" ∧
    find_similars embedW collW "q" = Except.ok (["docA"], ["Alice"], ["http://a"]) ∧
    (["docA"] : List String).length ≤ 10 := by
  have h := find_similars_fixed_k embedW collW collW2 "q" [] resultsW ["docA"]
    (fun _ => rfl) rfl rfl rfl (by decide)
  have hok : find_similars embedW collW "q" =
      Except.ok (["docA"], ["Alice"], ["http://a"]) := rfl
  exact ⟨h.1, hok, (h.2 ["docA"] ["Alice"] ["http://a"] hok).2⟩

/-- C6: `find_similars` propagates an embedding failure and an index lookup
failure unchanged, producing no result value at all in either case. -/
theorem find_similars_propagates_errors
    (embed : String → Except PipelineError (List Float))
    (coll : Collection) (description : String) :
    (∀ e, embed description = Except.error e →
      find_similars embed coll description = Except.error e) ∧
    (∀ emb e, embed description = Except.ok emb →
      coll.query emb 10 = Except.error e →
      find_similars embed coll description = Except.error e) := by
  constructor
  · intro e he
    simp [find_similars, he]
  · intro emb e hemb hq
    simp [find_similars, hemb, hq]

/-- Witness for `find_similars_propagates_errors`: a failing embedder and a
failing index each surface their own error unchanged. -/
theorem find_similars_propagates_errors_witness :
    find_similars embedFailW collW "q" = Except.error PipelineError.embeddingError ∧
    find_similars embedW collFailW "q" = Except.error PipelineError.indexQueryError := by
  exact ⟨(find_similars_propagates_errors embedFailW collW "q").1
      PipelineError.embeddingError rfl,
    (find_similars_propagates_errors embedW collFailW "q").2 []
      PipelineError.indexQueryError rfl rfl⟩

/-- C8: when the first documents list and the first metadatas list of the index have
equal length, a successful `find_similars` returns three lists of equal
length that are positionally aligned: entry `i` of each list comes from
index record `i`. -/
theorem find_similars_alignment
    (embed : String → Except PipelineError (List Float))
    (coll : Collection) (description : String)
    (emb : List Float) (results : QueryResults)
    (docs0 : List String) (metas0 : List Metadata)
    (docs names links : List String)
    (hemb : embed description = Except.ok emb)
    (hq : coll.query emb 10 = Except.ok results)
    (hd : results.documents[0]? = some docs0)
    (hm : results.metadatas[0]? = some metas0)
    (hlen : docs0.length = metas0.length)
    (hok : find_similars embed coll description = Except.ok (docs, names, links)) :
    docs.length = names.length ∧ names.length = links.length ∧ docs = docs0 ∧
    ∀ i, i < docs.length →
      ∃ m, metas0[i]? = some m ∧ docs[i]? = docs0[i]? ∧
        names[i]? = m.name ∧ links[i]? = m.url := by
  rw [find_similars_eq hemb hq hd hm] at hok
  cases hn : exceptMap (fun m => pyGet m.name "name") metas0 with
  | error e => rw [hn] at hok; exact absurd hok (by simp)
  | ok nm =>
    rw [hn] at hok
    cases hu : exceptMap (fun m => pyGet m.url "url") metas0 with
    | error e => rw [hu] at hok; exact absurd hok (by simp)
    | ok lk =>
      rw [hu] at hok
      have heq : docs0 = docs ∧ nm = names ∧ lk = links := by
        simpa [Prod.ext_iff] using hok
      obtain ⟨hdocs, hnm, hlk⟩ := heq
      subst hdocs
      rw [hnm] at hn
      rw [hlk] at hu
      have hnlen : names.length = metas0.length := exceptMap_ok_length hn
      have hllen : links.length = metas0.length := exceptMap_ok_length hu
      refine ⟨by rw [hnlen, ← hlen], by rw [hnlen, hllen], rfl, ?_⟩
      intro i hi
      have him : i < metas0.length := by rw [← hlen]; exact hi
      have hget : metas0[i]? = some metas0[i] := List.getElem?_eq_getElem him
      obtain ⟨y, hy, hfy⟩ := exceptMap_ok_get hn i metas0[i] hget
      obtain ⟨z, hz, hfz⟩ := exceptMap_ok_get hu i metas0[i] hget
      refine ⟨metas0[i], hget, rfl, ?_, ?_⟩
      · rw [hy, (pyGet_ok.mp hfy)]
      · rw [hz, (pyGet_ok.mp hfz)]

/-- Witness for `find_similars_alignment` on a concrete one-record index. -/
theorem find_similars_alignment_witness :
    find_similars embedW collW "q" = Except.ok (["docA"], ["Alice"], ["http://a"]) ∧
    (["docA"] : List String).length = (["Alice"] : List String).length ∧
    (["Alice"] : List String).length = (["http://a"] : List String).length := by
  have hok : find_similars embedW collW "q" =
      Except.ok (["docA"], ["Alice"], ["http://a"]) := rfl
  have h := find_similars_alignment embedW collW "q" [] resultsW
    ["docA"] [metaW] ["docA"] ["Alice"] ["http://a"] rfl rfl rfl rfl rfl hok
  exact ⟨hok, h.1, h.2.1⟩

/-- C1 counterexample: on an index record whose metadata lacks the `name`
field, `find_similars` aborts the turn with a `KeyError` instead of
substituting the empty string and producing a result. -/
theorem find_similars_missing_name_raises :
    find_similars embedW collC1 "query" =
      Except.error (PipelineError.keyError "name") := by rfl

/-- C1 (amended): whenever some returned metadata record lacks the `name` or
the `url` field, `find_similars` produces no RetrievedItem list at all — it
aborts with a `KeyError` on `name` or on `url`. -/
theorem find_similars_missing_field_aborts
    (embed : String → Except PipelineError (List Float))
    (coll : Collection) (description : String)
    (emb : List Float) (results : QueryResults)
    (docs0 : List String) (metas0 : List Metadata)
    (hemb : embed description = Except.ok emb)
    (hq : coll.query emb 10 = Except.ok results)
    (hd : results.documents[0]? = some docs0)
    (hm : results.metadatas[0]? = some metas0)
    (hmiss : ∃ m ∈ metas0, m.name = none ∨ m.url = none) :
    find_similars embed coll description =
      Except.error (PipelineError.keyError "name") ∨
    find_similars embed coll description =
      Except.error (PipelineError.keyError "url") := by
  rw [find_similars_eq hemb hq hd hm]
  cases hn : exceptMap (fun m => pyGet m.name "name") metas0 with
  | error e =>
    obtain ⟨x, _, hfx⟩ := exceptMap_error_mem hn
    have := (pyGet_error.mp hfx).2
    left
    simp [this]
  | ok nm =>
    obtain ⟨m, hmem, hcase⟩ := hmiss
    cases hcase with
    | inl hname =>
      obtain ⟨y, hy⟩ := exceptMap_ok_mem hn m hmem
      rw [pyGet_ok] at hy
      rw [hname] at hy
      exact absurd hy (by simp)
    | inr hurl =>
      cases hu : exceptMap (fun m => pyGet m.url "url") metas0 with
      | error e =>
        obtain ⟨x, _, hfx⟩ := exceptMap_error_mem hu
        have := (pyGet_error.mp hfx).2
        right
        simp [this]
      | ok lk =>
        obtain ⟨y, hy⟩ := exceptMap_ok_mem hu m hmem
        rw [pyGet_ok] at hy
        rw [hurl] at hy
        exact absurd hy (by simp)

/-- Witness for `find_similars_missing_field_aborts` at the concrete index
record lacking `name`. -/
theorem find_similars_missing_field_aborts_witness :
    find_similars embedW collC1 "query" =
      Except.error (PipelineError.keyError "name") ∨
    find_similars embedW collC1 "query" =
      Except.error (PipelineError.keyError "url") := by
  exact find_similars_missing_field_aborts embedW collC1 "query" []
    { documents := [["doc1"]], metadatas := [[metaC1]] } ["doc1"] [metaC1]
    (by rfl) (by rfl) (by rfl) (by rfl) ⟨metaC1, by simp, Or.inl rfl⟩
